import Mathlib

/-!
# Verification of the exam-timetabling solver (`src/main.py`)

The program reads an instance (counts, room capacities, and a list of
(exam, student) registration pairs), tallies how many students each exam
has (`student_exam_capacity`), builds a quantified constraint formula over
the uninterpreted functions `ExamRoom`, `ExamTime`, `ExamStudent`, hands it
to an SMT solver, and prints `Satisfied` together with the model's
timetable exactly when the check result is `sat`; otherwise it prints
`Unsatisfied`.

This file embeds the instance data model, the tally computation of
`read_file` (lines 45-48), the ground meaning of the asserted formula
(lines 69-140), and the reporting branch (lines 143-182).  The SMT call
itself is external to the repository; it enters the theorems as an
abstract `CheckResult` together with explicit soundness/completeness
hypotheses about it.
-/

namespace ExamTT

/-- The instance record built by `read_file` (`src/main.py` lines 6-14):
declared counts, the per-room capacity table, the registration pairs
`exams_to_students`, and the per-exam student tally
`student_exam_capacity`.  All numbers are parsed from digit-only regex
groups, hence natural numbers. -/
structure Instance where
  number_of_students : Nat
  number_of_exams : Nat
  number_of_slots : Nat
  number_of_rooms : Nat
  room_capacities : List Nat
  exams_to_students : List (Nat × Nat)
  student_exam_capacity : List Nat
deriving Repr, DecidableEq

/-- One step of the tally loop of `read_file` (line 47):
`student_exam_capacity[exam] += 1`.  Indexing a Python list out of range
raises an uncaught `IndexError`, modelled as `none`. -/
def bump (acc : Option (List Nat)) (p : Nat × Nat) : Option (List Nat) :=
  match acc with
  | none => none
  | some l => if h : p.1 < l.length then some (l.set p.1 (l.get ⟨p.1, h⟩ + 1)) else none

/-- The tally computation of `read_file` (lines 45-47): start from
`[0] * number_of_exams` and increment the entry of each pair's exam id.
`none` models the `IndexError` raised when an exam id is out of range. -/
def tally (ne : Nat) (regs : List (Nat × Nat)) : Option (List Nat) :=
  regs.foldl bump (some (List.replicate ne 0))

/-- The instance `read_file` returns for given parsed fields (lines 25-48):
the construction succeeds exactly when the tally does. -/
def readInstance (ns ne nsl nr : Nat) (caps : List Nat)
    (regs : List (Nat × Nat)) : Option Instance :=
  (tally ne regs).map (fun c => ⟨ns, ne, nsl, nr, caps, regs, c⟩)

/-- `Student_Range` as defined by the assertion on line 69. -/
def studentRange (i : Instance) (s : Int) : Prop :=
  0 ≤ s ∧ s < (i.number_of_students : Int)

/-- `Exam_Range` as defined by the assertion on line 70. -/
def examRange (i : Instance) (e : Int) : Prop :=
  0 ≤ e ∧ e < (i.number_of_exams : Int)

/-- `TimeSlot_Range` as defined by the assertion on line 71. -/
def slotRange (i : Instance) (t : Int) : Prop :=
  0 ≤ t ∧ t < (i.number_of_slots : Int)

/-- `Room_Range` as defined by the assertion on line 72. -/
def roomRange (i : Instance) (r : Int) : Prop :=
  0 ≤ r ∧ r < (i.number_of_rooms : Int)

/-- The ground assertions `ExamStudent(exam_id, student_id)` added for every
registration pair (lines 80-81). -/
def regAsserted (i : Instance) (S : Int → Int → Prop) : Prop :=
  ∀ p ∈ i.exams_to_students, S (p.1 : Int) (p.2 : Int)

/-- Constraints 1 and 2 (lines 85-110): every in-range exam has an in-range
room and timeslot, and no other in-range exam occupies the same
(room, timeslot) pair. -/
def assignOk (i : Instance) (R T : Int → Int) : Prop :=
  ∀ e : Int, examRange i e →
    ∃ r t : Int, roomRange i r ∧ slotRange i t ∧ T e = t ∧ R e = r ∧
      ¬ ∃ e2 : Int, examRange i e2 ∧ (R e2 = r ∧ T e2 = t ∧ e ≠ e2)

/-- Constraint 3 (lines 113-115): the ground implications
`ExamRoom(ex) == rm → student_exam_capacity[ex] <= room_capacities[rm]`
added for every `ex < number_of_exams` and `rm < number_of_rooms`. -/
def capacityOk (i : Instance) (R : Int → Int) : Prop :=
  ∀ ex < i.number_of_exams, ∀ rm < i.number_of_rooms,
    R (ex : Int) = (rm : Int) →
      i.student_exam_capacity.getD ex 0 ≤ i.room_capacities.getD rm 0

/-- Constraint 4 (lines 118-140): for every in-range student taking two
distinct in-range exams at in-range slots `t`, `t2`, neither `t + 1 = t2`
nor `t - 1 = t2` nor `t = t2`. -/
def sepOk (i : Instance) (S : Int → Int → Prop) (T : Int → Int) : Prop :=
  ∀ s e e2 t t2 : Int,
    (studentRange i s ∧ examRange i e ∧ examRange i e2 ∧
      slotRange i t ∧ slotRange i t2 ∧ e ≠ e2) →
    ((T e = t ∧ T e2 = t2 ∧ S e s ∧ S e2 s) →
      (t + 1 ≠ t2 ∧ t - 1 ≠ t2 ∧ t ≠ t2))

/-- The complete set of assertions `solve` adds to the solver for instance
`i`, read of an interpretation `(R, T, S)` of the uninterpreted functions
`ExamRoom`, `ExamTime`, `ExamStudent`. -/
def z3Constraints (i : Instance) (R T : Int → Int) (S : Int → Int → Prop) : Prop :=
  regAsserted i S ∧ assignOk i R T ∧ capacityOk i R ∧ sepOk i S T

/-- Satisfiability of the asserted formula: what `s.check() == sat` decides. -/
def Satisfiable (i : Instance) : Prop :=
  ∃ R T : Int → Int, ∃ S : Int → Int → Prop, z3Constraints i R T S

/-- The three possible results of `s.check()`. -/
inductive CheckResult where
  | sat
  | unsat
  | unknown
deriving Repr, DecidableEq

/-- The two verdicts the program can print (lines 143-182). -/
inductive Verdict where
  | Satisfied
  | Unsatisfied
deriving Repr, DecidableEq

/-- The reporting branch of `solve` (lines 143, 145, 181-182): `Satisfied`
exactly when the check result is `sat`, `Unsatisfied` in every other case. -/
def solveVerdict (r : CheckResult) : Verdict :=
  if r = CheckResult.sat then Verdict.Satisfied else Verdict.Unsatisfied

/-- The timetable printed from the model (lines 148-152): one
`(exam, room, slot)` row per exam id below `number_of_exams`, evaluated at
the model's `ExamRoom` and `ExamTime`. -/
def timetable (i : Instance) (R T : Int → Int) : List (Nat × Int × Int) :=
  (List.range i.number_of_exams).map (fun e => (e, R (e : Int), T (e : Int)))

/-- Everything `solve` reports for an instance, given the check result `r`
and the model interpretation `(R, T)` the solver would return on `sat`:
the printed verdict and, on `sat`, the printed timetable. -/
def runSolve (i : Instance) (r : CheckResult) (R T : Int → Int) :
    Verdict × Option (List (Nat × Int × Int)) :=
  if r = CheckResult.sat then (Verdict.Satisfied, some (timetable i R T))
  else (Verdict.Unsatisfied, none)

/-- A full run of the program on an instance, with the external solver's
check and model extraction abstracted as the functions `chk` and `mdl` of
the input instance. -/
def runOn (chk : Instance → CheckResult)
    (mdl : Instance → (Int → Int) × (Int → Int)) (i : Instance) :
    Verdict × Option (List (Nat × Int × Int)) :=
  runSolve i (chk i) (mdl i).1 (mdl i).2

/-- The spec's data-model invariant (§3): every registered exam id is in
`[0, numExams)` and every registered student id is in `[0, numStudents)`. -/
def ValidRegs (i : Instance) : Prop :=
  ∀ p ∈ i.exams_to_students, p.1 < i.number_of_exams ∧ p.2 < i.number_of_students

instance (i : Instance) : Decidable (ValidRegs i) := by
  unfold ValidRegs; infer_instance

/-! ## The spec's four constraint families (§4.2), stated in the spec's words
over an emitted assignment `(R, T)`.  Exam ids range over `[0, numExams)`;
`R`/`T` are the emitted `ExamRoom`/`ExamTime` maps. -/

/-- Spec family 1 (total assignment): every exam receives one in-range
(room, timeslot) pair.  (`R` and `T` being functions, uniqueness is
structural; in-rangeness is the content.) -/
def specTotalAssign (i : Instance) (R T : Int → Int) : Prop :=
  ∀ e < i.number_of_exams,
    (0 ≤ R (e : Int) ∧ R (e : Int) < (i.number_of_rooms : Int)) ∧
    (0 ≤ T (e : Int) ∧ T (e : Int) < (i.number_of_slots : Int))

/-- Spec family 2 (room capacity): `studentCount(e) <= capacity(assigned room)`. -/
def specCapacity (i : Instance) (R : Int → Int) : Prop :=
  ∀ e < i.number_of_exams,
    i.student_exam_capacity.getD e 0 ≤ i.room_capacities.getD (R (e : Int)).toNat 0

/-- Spec family 3 (no double-booking): distinct exams never share the same
(room, timeslot) pair. -/
def specNoDouble (i : Instance) (R T : Int → Int) : Prop :=
  ∀ e1 < i.number_of_exams, ∀ e2 < i.number_of_exams, e1 ≠ e2 →
    ¬ (R (e1 : Int) = R (e2 : Int) ∧ T (e1 : Int) = T (e2 : Int))

/-- Spec family 4 (student separation): distinct exams sharing a registered
student sit strictly more than one slot apart. -/
def specSeparation (i : Instance) (T : Int → Int) : Prop :=
  ∀ e1 < i.number_of_exams, ∀ e2 < i.number_of_exams, ∀ s : Nat, e1 ≠ e2 →
    (e1, s) ∈ i.exams_to_students → (e2, s) ∈ i.exams_to_students →
    1 < (T (e1 : Int) - T (e2 : Int)).natAbs

/-- All four spec families together: what §4.2 demands of a `Solution`. -/
def specSolution (i : Instance) (R T : Int → Int) : Prop :=
  specTotalAssign i R T ∧ specCapacity i R ∧ specNoDouble i R T ∧ specSeparation i T

/-- Spec-level satisfiability: some assignment of exams to in-range
(room, timeslot) pairs satisfies all four families of §4.2. -/
def SpecSatisfiable (i : Instance) : Prop :=
  ∃ R T : Int → Int, specSolution i R T

/-! ## From a model of the asserted formula to the spec families -/

theorem models_totalAssign {i : Instance} {R T : Int → Int} {S : Int → Int → Prop}
    (h : z3Constraints i R T S) : specTotalAssign i R T := by
  intro e he
  obtain ⟨-, hassign, -, -⟩ := h
  obtain ⟨r, t, hr, ht, hTe, hRe, -⟩ := hassign (e : Int) ⟨by positivity, by exact_mod_cast he⟩
  exact ⟨hRe ▸ hr, hTe ▸ ht⟩

theorem models_capacity {i : Instance} {R T : Int → Int} {S : Int → Int → Prop}
    (h : z3Constraints i R T S) : specCapacity i R := by
  intro e he
  have hrange := models_totalAssign h e he
  obtain ⟨-, -, hcap, -⟩ := h
  have h0 : 0 ≤ R (e : Int) := hrange.1.1
  have h1 : R (e : Int) < (i.number_of_rooms : Int) := hrange.1.2
  have hlt : (R (e : Int)).toNat < i.number_of_rooms := by omega
  exact hcap e he (R (e : Int)).toNat hlt (by omega)

theorem models_noDouble {i : Instance} {R T : Int → Int} {S : Int → Int → Prop}
    (h : z3Constraints i R T S) : specNoDouble i R T := by
  intro e1 h1 e2 h2 hne ⟨hReq, hTeq⟩
  obtain ⟨-, hassign, -, -⟩ := h
  obtain ⟨r, t, -, -, hTe, hRe, hnex⟩ :=
    hassign (e1 : Int) ⟨by positivity, by exact_mod_cast h1⟩
  exact hnex ⟨(e2 : Int), ⟨by positivity, by exact_mod_cast h2⟩,
    hReq ▸ hRe, hTeq ▸ hTe, by exact_mod_cast hne⟩

theorem models_separation {i : Instance} {R T : Int → Int} {S : Int → Int → Prop}
    (hvalid : ValidRegs i) (h : z3Constraints i R T S) : specSeparation i T := by
  intro e1 h1 e2 h2 s hne hm1 hm2
  have hs : s < i.number_of_students := (hvalid _ hm1).2
  have hr1 := models_totalAssign h e1 h1
  have hr2 := models_totalAssign h e2 h2
  obtain ⟨hreg, -, -, hsep⟩ := h
  have := hsep (s : Int) (e1 : Int) (e2 : Int) (T (e1 : Int)) (T (e2 : Int))
    ⟨⟨by positivity, by exact_mod_cast hs⟩,
      ⟨by positivity, by exact_mod_cast h1⟩,
      ⟨by positivity, by exact_mod_cast h2⟩,
      hr1.2, hr2.2, by exact_mod_cast hne⟩
    ⟨rfl, rfl, hreg _ hm1, hreg _ hm2⟩
  omega

/-! ## From a spec-level solution to a model of the asserted formula -/

/-- The interpretation of `ExamStudent` that holds exactly of the
registered pairs. -/
def regS (i : Instance) : Int → Int → Prop :=
  fun e s => ∃ p ∈ i.exams_to_students, (p.1 : Int) = e ∧ (p.2 : Int) = s

theorem spec_to_z3 {i : Instance} {R T : Int → Int}
    (h : specSolution i R T) : z3Constraints i R T (regS i) := by
  obtain ⟨htot, hcap, hnd, hsep⟩ := h
  refine ⟨?_, ?_, ?_, ?_⟩
  · intro p hp
    exact ⟨p, hp, rfl, rfl⟩
  · intro e ⟨he0, heN⟩
    have heq : ((e.toNat : Nat) : Int) = e := Int.toNat_of_nonneg he0
    have heN2 : e.toNat < i.number_of_exams := by omega
    refine ⟨R e, T e, ?_, ?_, rfl, rfl, ?_⟩
    · have := (htot e.toNat heN2).1
      rw [heq] at this
      exact this
    · have := (htot e.toNat heN2).2
      rw [heq] at this
      exact this
    · rintro ⟨e2, ⟨he20, he2N⟩, hR2, hT2, hne⟩
      have heq2 : ((e2.toNat : Nat) : Int) = e2 := Int.toNat_of_nonneg he20
      have he2N2 : e2.toNat < i.number_of_exams := by omega
      refine hnd e.toNat heN2 e2.toNat he2N2 (fun hc => hne ?_) ?_
      · rw [← heq, ← heq2, hc]
      · constructor
        · rw [heq, heq2, hR2]
        · rw [heq, heq2, hT2]
  · intro ex hex rm hrm hR
    have := hcap ex hex
    rwa [hR, Int.toNat_natCast] at this
  · rintro s e e2 t t2 ⟨-, ⟨he0, heN⟩, ⟨he20, he2N⟩, -, -, hne⟩
    rintro ⟨hTe, hTe2, ⟨p, hp, hpe, hps⟩, ⟨q, hq, hqe, hqs⟩⟩
    have hpq : p.2 = q.2 := by
      have : (p.2 : Int) = (q.2 : Int) := by rw [hps, hqs]
      exact_mod_cast this
    have hp1 : p.1 < i.number_of_exams := by omega
    have hq1 : q.1 < i.number_of_exams := by omega
    have hne2 : p.1 ≠ q.1 := by
      intro hc
      exact hne (by rw [← hpe, ← hqe, hc])
    have hq2 : (q.1, p.2) ∈ i.exams_to_students := by
      rw [hpq]
      exact hq
    have := hsep p.1 hp1 q.1 hq1 p.2 hne2 hp hq2
    rw [hpe, hqe, hTe, hTe2] at this
    omega

theorem specSat_implies_sat {i : Instance} (h : SpecSatisfiable i) :
    Satisfiable i := by
  obtain ⟨R, T, hsol⟩ := h
  exact ⟨R, T, regS i, spec_to_z3 hsol⟩

/-! ## The tally computation: success and failure -/

theorem foldl_bump_none (regs : List (Nat × Nat)) :
    regs.foldl bump none = none := by
  induction regs with
  | nil => rfl
  | cons p regs ih => exact ih

theorem foldl_bump_isSome (regs : List (Nat × Nat)) (l : List Nat) :
    (regs.foldl bump (some l)).isSome = true ↔ ∀ p ∈ regs, p.1 < l.length := by
  induction regs generalizing l with
  | nil => simp
  | cons p regs ih =>
    by_cases h : p.1 < l.length
    · have hstep : bump (some l) p = some (l.set p.1 (l.get ⟨p.1, h⟩ + 1)) := by
        simp [bump, h]
      rw [List.foldl_cons, hstep, ih]
      simp [List.length_set, h]
    · have hstep : bump (some l) p = none := by
        simp [bump, h]
      rw [List.foldl_cons, hstep, foldl_bump_none]
      simp only [Option.isSome_none, Bool.false_eq_true, false_iff]
      intro hall
      exact absurd (hall p (List.mem_cons_self p regs)) h

theorem tally_isSome_iff (ne : Nat) (regs : List (Nat × Nat)) :
    (tally ne regs).isSome = true ↔ ∀ p ∈ regs, p.1 < ne := by
  rw [tally, foldl_bump_isSome]
  simp

theorem foldl_bump_length (regs : List (Nat × Nat)) (l cs : List Nat)
    (h : regs.foldl bump (some l) = some cs) : cs.length = l.length := by
  induction regs generalizing l with
  | nil =>
    simp at h
    rw [← h]
  | cons p regs ih =>
    rw [List.foldl_cons] at h
    by_cases hb : p.1 < l.length
    · have hstep : bump (some l) p = some (l.set p.1 (l.get ⟨p.1, hb⟩ + 1)) := by
        simp [bump, hb]
      rw [hstep] at h
      have := ih _ h
      rwa [List.length_set] at this
    · have hstep : bump (some l) p = none := by
        simp [bump, hb]
      rw [hstep, foldl_bump_none] at h
      exact absurd h (by simp)

theorem tally_length {ne : Nat} {regs : List (Nat × Nat)} {cs : List Nat}
    (h : tally ne regs = some cs) : cs.length = ne := by
  have := foldl_bump_length regs _ _ h
  rwa [List.length_replicate] at this

/-- Appending one more registration pair tallies on top of the previous
result (`List.foldl_append`), and an in-range pair increments exactly its
exam's entry. -/
theorem tally_snoc (ne : Nat) (regs : List (Nat × Nat)) (e s : Nat)
    (cs : List Nat) (h : tally ne regs = some cs) (he : e < ne) :
    ∃ cs2, tally ne (regs ++ [(e, s)]) = some cs2 ∧
      cs2.getD e 0 = cs.getD e 0 + 1 := by
  have hlen : cs.length = ne := tally_length h
  have helen : e < cs.length := by omega
  refine ⟨cs.set e (cs.get ⟨e, helen⟩ + 1), ?_, ?_⟩
  · rw [tally, List.foldl_append, ← tally, h]
    simp [bump, helen]
  · rw [List.getD_eq_getElem _ _ (by rw [List.length_set]; omega),
      List.getD_eq_getElem _ _ helen]
    simp [List.getElem_set_self]

/-! ## Concrete instances used in the boundary scenarios -/

/-- Separation boundary scenario: one student takes both exams, three
slots, one room of ample capacity. -/
def gapInstance : Instance := ⟨1, 2, 3, 1, [5], [(0, 0), (1, 0)], [1, 1]⟩

/-- Room and slot maps placing exam 0 at slot 0 and exam 1 at slot 2,
both in room 0: slots `t` and `t + 2`. -/
def gapR : Int → Int := fun _ => 0

def gapT : Int → Int := fun e => if e = 0 then 0 else 2

/-- Capacity boundary scenario: one exam with two students in a room of
capacity exactly two. -/
def capInstance : Instance := ⟨2, 1, 1, 1, [2], [(0, 0), (0, 1)], [2]⟩

/-- An instance whose registration list names student 5 although only one
student is declared: `read_file` builds it without complaint. -/
def oorInstance : Instance := ⟨1, 1, 1, 1, [2], [(0, 5)], [1]⟩

/-- One exam, one student, room capacity 1: the registration listed once. -/
def dupA : Instance := ⟨1, 1, 1, 1, [1], [(0, 0)], [1]⟩

/-- The same instance with the registration pair duplicated: the tally
counts it twice, so `student_exam_capacity` is `[2]`. -/
def dupB : Instance := ⟨1, 1, 1, 1, [1], [(0, 0), (0, 0)], [2]⟩

/-- Pigeonhole scenario: two exams with disjoint students, one room, one
slot. -/
def pigeonInstance : Instance := ⟨2, 2, 1, 1, [5], [(0, 0), (1, 1)], [1, 1]⟩

/-- A zero-exam instance with nonzero other counts. -/
def emptyInstance : Instance := ⟨3, 0, 2, 1, [4], [], []⟩

/-- Any single-exam instance with a room and a slot and enough capacity in
room 0 is satisfied by the constant-zero model. -/
theorem single_exam_models (i : Instance)
    (hne : i.number_of_exams = 1) (hnr : 1 ≤ i.number_of_rooms)
    (hns : 1 ≤ i.number_of_slots)
    (hcap : i.student_exam_capacity.getD 0 0 ≤ i.room_capacities.getD 0 0) :
    z3Constraints i (fun _ => 0) (fun _ => 0) (fun _ _ => True) := by
  refine ⟨fun p hp => trivial, ?_, ?_, ?_⟩
  · intro e he
    obtain ⟨he0, heN⟩ := he
    have he1 : e = 0 := by rw [hne] at heN; omega
    refine ⟨0, 0, ⟨le_refl 0, by exact_mod_cast hnr⟩,
      ⟨le_refl 0, by exact_mod_cast hns⟩, rfl, rfl, ?_⟩
    rintro ⟨e2, ⟨he20, he2N⟩, -, -, hne2⟩
    rw [hne] at he2N
    have : e2 = 0 := by omega
    exact hne2 (by omega)
  · intro ex hex rm hrm hR
    have hex0 : ex = 0 := by omega
    have hrm0 : rm = 0 := by
      have : ((rm : Nat) : Int) = 0 := hR.symm
      omega
    rw [hex0, hrm0]
    exact hcap
  · rintro s e e2 t t2 ⟨-, ⟨he0, heN⟩, ⟨he20, he2N⟩, -, -, hne2⟩ -
    rw [hne] at heN he2N
    exact absurd (by omega : e = e2) hne2

/-- The separation-boundary model: exams 0 and 1, sharing student 0,
placed at slots 0 and 2 in room 0, satisfy every assertion. -/
theorem gap_models :
    z3Constraints gapInstance gapR gapT (fun _ _ => True) := by
  refine ⟨fun p hp => trivial, ?_, ?_, ?_⟩
  · intro e he
    obtain ⟨he0, heN⟩ := he
    have heN2 : e < 2 := by exact_mod_cast heN
    have hcase : e = 0 ∨ e = 1 := by omega
    refine ⟨0, gapT e, ⟨le_refl 0, by norm_num [gapInstance]⟩, ?_, rfl, rfl, ?_⟩
    · rcases hcase with h | h <;> rw [h] <;> simp [gapT, slotRange, gapInstance]
    · rintro ⟨e2, ⟨he20, he2N⟩, -, hT2, hne2⟩
      have he2N2 : e2 < 2 := by exact_mod_cast he2N
      have hcase2 : e2 = 0 ∨ e2 = 1 := by omega
      rcases hcase with h | h <;> rcases hcase2 with h2 | h2 <;>
        subst h <;> subst h2 <;> simp [gapT] at hT2 hne2
  · intro ex hex rm hrm hR
    have hex2 : ex < 2 := hex
    have hrm1 : rm < 1 := hrm
    interval_cases ex <;> interval_cases rm <;> decide
  · rintro s e e2 t t2 ⟨-, ⟨he0, heN⟩, ⟨he20, he2N⟩, -, -, hne2⟩
    rintro ⟨hTe, hTe2, -, -⟩
    have heN2 : e < 2 := by exact_mod_cast heN
    have he2N2 : e2 < 2 := by exact_mod_cast he2N
    have hcase : e = 0 ∨ e = 1 := by omega
    have hcase2 : e2 = 0 ∨ e2 = 1 := by omega
    rcases hcase with h | h <;> rcases hcase2 with h2 | h2 <;>
      subst h <;> subst h2 <;> simp [gapT] at hTe hTe2 hne2 ⊢ <;> omega

/-- The spec-level reading of the separation-boundary model. -/
theorem gap_specSolution : specSolution gapInstance gapR gapT :=
  ⟨models_totalAssign gap_models, models_capacity gap_models,
    models_noDouble gap_models,
    models_separation (by decide) gap_models⟩

/-- With the duplicated registration the single room's capacity is
exceeded: no model satisfies the assertions. -/
theorem dupB_unsat : ¬ Satisfiable dupB := by
  rintro ⟨R, T, S, -, hassign, hcap, -⟩
  obtain ⟨r, t, hr, ht, hTe, hRe, -⟩ :=
    hassign 0 ⟨le_refl 0, by norm_num [dupB, examRange]⟩
  obtain ⟨hr0, hr1⟩ := hr
  have hr2 : r < 1 := by
    have : (dupB.number_of_rooms : Int) = 1 := by norm_num [dupB]
    omega
  have hR0 : R ((0 : Nat) : Int) = ((0 : Nat) : Int) := by
    push_cast
    omega
  have := hcap 0 (by norm_num [dupB]) 0 (by norm_num [dupB]) hR0
  revert this
  decide

/-- With one room and one slot, two exams cannot both be assigned: the
inner no-double-booking clause of constraint 1-2 is violated. -/
theorem pigeonhole_unsat (i : Instance)
    (hnr : i.number_of_rooms = 1) (hns : i.number_of_slots = 1)
    (hne : i.number_of_exams = 2) : ¬ Satisfiable i := by
  rintro ⟨R, T, S, -, hassign, -, -⟩
  obtain ⟨r0, t0, ⟨hr0a, hr0b⟩, ⟨ht0a, ht0b⟩, hT0, hR0, hnex⟩ :=
    hassign 0 ⟨le_refl 0, by rw [hne]; norm_num⟩
  obtain ⟨r1, t1, ⟨hr1a, hr1b⟩, ⟨ht1a, ht1b⟩, hT1, hR1, -⟩ :=
    hassign 1 ⟨by norm_num, by rw [hne]; norm_num⟩
  rw [hnr] at hr0b hr1b
  rw [hns] at ht0b ht1b
  have hr : r1 = r0 := by omega
  have ht : t1 = t0 := by omega
  exact hnex ⟨1, ⟨by norm_num, by rw [hne]; norm_num⟩,
    by rw [hR1, hr], by rw [hT1, ht], by norm_num⟩

/-- The two exams of `pigeonInstance` have disjoint registered student
sets. -/
theorem pigeon_disjoint : ∀ s : Nat,
    ¬ ((0, s) ∈ pigeonInstance.exams_to_students ∧
        (1, s) ∈ pigeonInstance.exams_to_students) := by
  rintro s ⟨h1, h2⟩
  simp [pigeonInstance, Prod.ext_iff] at h1 h2
  omega

/-! ## The claims -/

/-- Claim C1 (soundness): on every instance satisfying the data-model
invariant, any model of the asserted formula — in particular the one the
solver emits when it prints `Satisfied` — satisfies all four constraint
families of the spec: in-range total assignment, room capacity, no
double-booking, and strict student separation. -/
theorem C1_soundness :
    ∀ (i : Instance) (R T : Int → Int) (S : Int → Int → Prop),
      ValidRegs i → z3Constraints i R T S → specSolution i R T :=
  fun _ _ _ _ hv h =>
    ⟨models_totalAssign h, models_capacity h, models_noDouble h,
      models_separation hv h⟩

theorem C1_soundness_witness :
    ValidRegs gapInstance ∧ specSolution gapInstance gapR gapT :=
  ⟨by decide,
    C1_soundness gapInstance gapR gapT (fun _ _ => True) (by decide) gap_models⟩

/-- Claim C2 (completeness): for every valid instance admitting a
spec-level solution — an assignment of exams to in-range (room, timeslot)
pairs meeting all four constraint families — the asserted formula is
satisfiable, so a complete check returns `sat` and the solver prints
`Satisfied`, never `Unsatisfied`. -/
theorem C2_completeness :
    ∀ (i : Instance) (chk : CheckResult),
      ValidRegs i → SpecSatisfiable i →
      (Satisfiable i → chk = CheckResult.sat) →
      solveVerdict chk = Verdict.Satisfied := by
  intro i chk _ hspec hcomplete
  rw [hcomplete (specSat_implies_sat hspec)]
  rfl

theorem C2_completeness_witness :
    ValidRegs gapInstance ∧ SpecSatisfiable gapInstance ∧
      solveVerdict CheckResult.sat = Verdict.Satisfied :=
  ⟨by decide, ⟨gapR, gapT, gap_specSolution⟩,
    C2_completeness gapInstance CheckResult.sat (by decide)
      ⟨gapR, gapT, gap_specSolution⟩ (fun _ => rfl)⟩

/-- Claim C3 (strict separation gap): in any emitted model over a valid
instance, two distinct exams sharing a registered student sit more than
one slot apart — in particular slot `t + 1` and slot `t` itself are both
rejected for the second exam — while the concrete boundary instance
placing two such exams at slots `t` and `t + 2` satisfies every
assertion. -/
theorem C3_separation :
    (∀ (i : Instance) (R T : Int → Int) (S : Int → Int → Prop) (e1 e2 s : Nat),
      ValidRegs i → z3Constraints i R T S →
      e1 < i.number_of_exams → e2 < i.number_of_exams → e1 ≠ e2 →
      (e1, s) ∈ i.exams_to_students → (e2, s) ∈ i.exams_to_students →
      1 < (T (e1 : Int) - T (e2 : Int)).natAbs ∧
        T (e2 : Int) ≠ T (e1 : Int) + 1 ∧ T (e2 : Int) ≠ T (e1 : Int)) ∧
    z3Constraints gapInstance gapR gapT (fun _ _ => True) ∧
    gapT 1 = gapT 0 + 2 ∧
    (0, 0) ∈ gapInstance.exams_to_students ∧
    (1, 0) ∈ gapInstance.exams_to_students := by
  refine ⟨?_, gap_models, by norm_num [gapT], by decide, by decide⟩
  intro i R T S e1 e2 s hv h h1 h2 hne hm1 hm2
  have hgap := models_separation hv h e1 h1 e2 h2 s hne hm1 hm2
  omega

/-- Claim C4 (capacity boundary): every emitted model respects
`studentCount(e) <= capacity(assigned room)`; an exam whose student count
exceeds a room's capacity by one is never assigned that room; and the
concrete boundary instance with `studentCount = capacity` is accepted. -/
theorem C4_capacity :
    (∀ (i : Instance) (R T : Int → Int) (S : Int → Int → Prop),
      z3Constraints i R T S → specCapacity i R) ∧
    (∀ (i : Instance) (R T : Int → Int) (S : Int → Int → Prop) (e r : Nat),
      z3Constraints i R T S → e < i.number_of_exams → r < i.number_of_rooms →
      i.student_exam_capacity.getD e 0 = i.room_capacities.getD r 0 + 1 →
      R (e : Int) ≠ (r : Int)) ∧
    z3Constraints capInstance (fun _ => 0) (fun _ => 0) (fun _ _ => True) ∧
    capInstance.student_exam_capacity.getD 0 0 =
      capInstance.room_capacities.getD 0 0 := by
  refine ⟨fun _ _ _ _ h => models_capacity h, ?_,
    single_exam_models capInstance rfl (by decide) (by decide) (by decide),
    by decide⟩
  intro i R T S e r h he hr hcount hR
  have := h.2.2.1 e he r hr hR
  omega

/-- Claim C5: the reporting branch of `solve` prints `Unsatisfied` for
every check result other than `sat` — in particular for `unknown`
(timeout / incomplete reasoning), conflating it with infeasibility
instead of reporting it distinctly. -/
theorem C5_unknown_reported_unsatisfied :
    solveVerdict CheckResult.unknown = Verdict.Unsatisfied := rfl

/-- Claim C6, counterexample: on the input whose single registration names
student 5 while only 1 student is declared, `read_file` builds the
instance without any error — no `InvalidInstance` failure exists in the
code — and the resulting instance is solved normally. -/
theorem C6_counterexample :
    ¬ (5 < oorInstance.number_of_students) ∧
    readInstance 1 1 1 1 [2] [(0, 5)] = some oorInstance ∧
    Satisfiable oorInstance :=
  ⟨by decide, by decide,
    ⟨fun _ => 0, fun _ => 0, fun _ _ => True,
      single_exam_models oorInstance rfl (by decide) (by decide) (by decide)⟩⟩

/-- Claim C6 as amended: instance construction fails exactly when some
registration pair's exam id is out of `[0, numExams)` — an uncaught
indexing error, not a distinguished `InvalidInstance` — and never checks
student ids; negative ids and counts cannot arise from the digit-only
parser. -/
theorem C6_construction :
    ∀ (ns ne nsl nr : Nat) (caps : List Nat) (regs : List (Nat × Nat)),
      (readInstance ns ne nsl nr caps regs).isSome = true ↔
        ∀ p ∈ regs, p.1 < ne := by
  intro ns ne nsl nr caps regs
  rw [← tally_isSome_iff ne regs, readInstance]
  cases tally ne regs <;> simp

/-- Claim C7, counterexample: duplicating the registration pair `(0, 0)`
changes the tallied `student_exam_capacity` from `[1]` to `[2]`, and flips
the instance from satisfiable to unsatisfiable under the room-capacity
constraint, so the solver's behaviour is not unchanged. -/
theorem C7_counterexample :
    tally 1 [(0, 0)] = some [1] ∧
    tally 1 [(0, 0), (0, 0)] = some [2] ∧
    dupA.student_exam_capacity ≠ dupB.student_exam_capacity ∧
    Satisfiable dupA ∧ ¬ Satisfiable dupB :=
  ⟨by decide, by decide, by decide,
    ⟨fun _ => 0, fun _ => 0, fun _ _ => True,
      single_exam_models dupA rfl (by decide) (by decide) (by decide)⟩,
    dupB_unsat⟩

/-- Claim C7 as amended: a duplicate registration pair never crashes the
tally (an in-range pair appended to a tallied list still tallies), and the
asserted `ExamStudent` facts are unchanged by duplication, but the
duplicated exam's student count increments, which can flip the reported
result through the capacity constraint. -/
theorem C7_duplicate_effect :
    (∀ (ne : Nat) (regs : List (Nat × Nat)) (e s : Nat) (cs : List Nat),
      tally ne regs = some cs → e < ne →
      ∃ cs2, tally ne (regs ++ [(e, s)]) = some cs2 ∧
        cs2.getD e 0 = cs.getD e 0 + 1) ∧
    (∀ (ns ne nsl nr : Nat) (caps : List Nat) (regs : List (Nat × Nat))
      (cs1 cs2 : List Nat) (p : Nat × Nat) (S : Int → Int → Prop),
      regAsserted ⟨ns, ne, nsl, nr, caps, p :: p :: regs, cs1⟩ S ↔
        regAsserted ⟨ns, ne, nsl, nr, caps, p :: regs, cs2⟩ S) ∧
    Satisfiable dupA ∧ ¬ Satisfiable dupB := by
  refine ⟨tally_snoc, ?_, ?_, dupB_unsat⟩
  · intro ns ne nsl nr caps regs cs1 cs2 p S
    constructor
    · intro h q hq
      exact h q (by simp only [List.mem_cons] at hq ⊢; tauto)
    · intro h q hq
      exact h q (by simp only [List.mem_cons] at hq ⊢; tauto)
  · exact ⟨fun _ => 0, fun _ => 0, fun _ _ => True,
      single_exam_models dupA rfl (by decide) (by decide) (by decide)⟩

/-- Claim C8 (determinism): the whole run — check-result branch, verdict
and printed timetable — is a function of the input instance (the external
solver entering as fixed functions `chk`, `mdl`), so identical inputs
produce identical results. -/
theorem C8_determinism :
    ∀ (chk : Instance → CheckResult)
      (mdl : Instance → (Int → Int) × (Int → Int)) (i1 i2 : Instance),
      i1 = i2 → runOn chk mdl i1 = runOn chk mdl i2 := by
  intro chk mdl i1 i2 h
  rw [h]

theorem C8_determinism_witness :
    runOn (fun _ => CheckResult.sat) (fun _ => (gapR, gapT)) gapInstance =
      runOn (fun _ => CheckResult.sat) (fun _ => (gapR, gapT)) gapInstance :=
  C8_determinism (fun _ => CheckResult.sat) (fun _ => (gapR, gapT))
    gapInstance gapInstance rfl

/-- Claim C9 (pigeonhole infeasibility): with one room, one slot and two
exams (their registered student sets disjoint), the asserted formula is
unsatisfiable, so a sound check never returns `sat` and the solver prints
`Unsatisfied`. -/
theorem C9_pigeonhole :
    ∀ (i : Instance) (chk : CheckResult),
      i.number_of_rooms = 1 → i.number_of_slots = 1 →
      i.number_of_exams = 2 →
      (∀ s : Nat, ¬ ((0, s) ∈ i.exams_to_students ∧
          (1, s) ∈ i.exams_to_students)) →
      (chk = CheckResult.sat → Satisfiable i) →
      solveVerdict chk = Verdict.Unsatisfied := by
  intro i chk hnr hns hne _ hsound
  have hunsat := pigeonhole_unsat i hnr hns hne
  cases chk with
  | sat => exact absurd (hsound rfl) hunsat
  | unsat => rfl
  | unknown => rfl

theorem C9_pigeonhole_witness :
    (∀ s : Nat, ¬ ((0, s) ∈ pigeonInstance.exams_to_students ∧
        (1, s) ∈ pigeonInstance.exams_to_students)) ∧
    solveVerdict CheckResult.unsat = Verdict.Unsatisfied :=
  ⟨pigeon_disjoint,
    C9_pigeonhole pigeonInstance CheckResult.unsat rfl rfl rfl pigeon_disjoint
      (fun h => absurd h (by decide))⟩

/-- Claim C10 (zero exams): an instance with no exams and an empty
registration list makes every constraint vacuous, so the formula is
satisfiable, a complete check returns `sat`, and the solver prints
`Satisfied` with an empty timetable. -/
theorem C10_zero_exams :
    ∀ (i : Instance) (chk : CheckResult) (R T : Int → Int),
      i.number_of_exams = 0 → i.exams_to_students = [] →
      (Satisfiable i → chk = CheckResult.sat) →
      runSolve i chk R T = (Verdict.Satisfied, some []) := by
  intro i chk R T hne hregs hcomplete
  have hsat : Satisfiable i := by
    refine ⟨fun _ => 0, fun _ => 0, fun _ _ => True, ?_, ?_, ?_, ?_⟩
    · intro p hp
      trivial
    · intro e ⟨he0, heN⟩
      rw [hne] at heN
      omega
    · intro ex hex
      rw [hne] at hex
      omega
    · rintro s e e2 t t2 ⟨-, ⟨he0, heN⟩, -, -, -, -⟩
      rw [hne] at heN
      omega
  rw [hcomplete hsat]
  simp [runSolve, timetable, hne]

theorem C10_zero_exams_witness :
    emptyInstance.number_of_exams = 0 ∧
    emptyInstance.exams_to_students = [] ∧
    runSolve emptyInstance CheckResult.sat (fun _ => 0) (fun _ => 0) =
      (Verdict.Satisfied, some []) :=
  ⟨rfl, rfl,
    C10_zero_exams emptyInstance CheckResult.sat (fun _ => 0) (fun _ => 0)
      rfl rfl (fun _ => rfl)⟩

end ExamTT
